import Mathlib

set_option maxHeartbeats 1000000

/-!
Verification development for the Elementary Transform Sequence (ETS) core of
`roboticstoolbox/robot/ETS.py`.

The shallow embedding below mirrors the source file:
* an `ETrec` is the namedtuple `ETS3 = (eta, axis_func, axis, joint, T)`;
  the stored `axis_func` is always the function determined by the `axis` tag
  (bound by the constructors `rx .. tz`), so it is represented by the total
  function `axis_func` over the tag rather than by a stored closure;
* a sequence (`SuperETS`/`ETS` instance) is the Python list `self.data`,
  embedded as `List (ETrec R)`;
* NumPy `float64` arithmetic is embedded as arithmetic in an arbitrary field
  `R` (instantiated with `ℝ` and `Real.cos`/`Real.sin`/`Real.pi` for the
  concrete trigonometric scenarios); 4x4 homogeneous transforms are
  `Matrix (Fin 4) (Fin 4) R`;
* Python exceptions are modelled with `Except PyErr` / `Option` (`none` =
  the operation raises).
-/

namespace RTB

/-- Python exception kinds that the modelled code can raise. -/
inductive PyErr
  | NameError
  | TypeError
  | IndexError
  | ValueError
  | AttributeError
deriving DecidableEq

/-- The `axis` string of an ET: `'Rx' | 'Ry' | 'Rz' | 'tx' | 'ty' | 'tz' | 'C'`. -/
inductive Axis
  | Rx | Ry | Rz | tx | ty | tz | C
deriving DecidableEq

/-- Test `axis[0] == 'R'` (used by `SuperETS.isrevolute` and the degree
conversion inside `SuperETS.eval`). -/
def Axis.isR : Axis → Bool
  | .Rx | .Ry | .Rz => true
  | _ => false

/-- Test `axis[0] == 't'` (used by `SuperETS.isprismatic`). -/
def Axis.isP : Axis → Bool
  | .tx | .ty | .tz => true
  | _ => false

/-- Test `axis[0] == 'C'` (used by `SuperETS.isconstant`). -/
def Axis.isC : Axis → Bool
  | .C => true
  | _ => false

/-- Shorthand for a 4x4 homogeneous transform matrix. -/
abbrev M4 (R : Type) : Type := Matrix (Fin 4) (Fin 4) R

variable {R : Type} [Field R]

/-- The namedtuple `ETS3 = namedtuple('ETS3', 'eta axis_func axis joint T')`.
The `axis_func` slot is omitted because the constructors always bind it to the
function determined by `axis` (`trotx`/`troty`/`trotz` or the inline
translation builders), and it is `None` exactly when `axis = 'C'`; calls
`et.axis_func(q)` are modelled by `axis_func axis q` below.  `T` is the cached
constant transform (`None` for joints). -/
structure ETrec (R : Type) where
  eta : Option R
  axis : Axis
  joint : Bool
  T : Option (M4 R)

/-- Elementary rotation about the x-axis, `spatialmath.base.trotx θ`
(`rcos`/`rsin` stand for the cosine and sine functions of the scalar type). -/
def trotx (rcos rsin : R → R) (θ : R) : M4 R :=
  !![1, 0, 0, 0;
     0, rcos θ, -(rsin θ), 0;
     0, rsin θ, rcos θ, 0;
     0, 0, 0, 1]

/-- Elementary rotation about the y-axis, `spatialmath.base.troty θ`. -/
def troty (rcos rsin : R → R) (θ : R) : M4 R :=
  !![rcos θ, 0, rsin θ, 0;
     0, 1, 0, 0;
     -(rsin θ), 0, rcos θ, 0;
     0, 0, 0, 1]

/-- Elementary rotation about the z-axis, `spatialmath.base.trotz θ`. -/
def trotz (rcos rsin : R → R) (θ : R) : M4 R :=
  !![rcos θ, -(rsin θ), 0, 0;
     rsin θ, rcos θ, 0, 0;
     0, 0, 1, 0;
     0, 0, 0, 1]

/-- The inline `axis_func` of `ETS.tx`: translation along the x-axis. -/
def transx (η : R) : M4 R :=
  !![1, 0, 0, η;
     0, 1, 0, 0;
     0, 0, 1, 0;
     0, 0, 0, 1]

/-- The inline `axis_func` of `ETS.ty`: translation along the y-axis. -/
def transy (η : R) : M4 R :=
  !![1, 0, 0, 0;
     0, 1, 0, η;
     0, 0, 1, 0;
     0, 0, 0, 1]

/-- The inline `axis_func` of `ETS.tz`: translation along the z-axis. -/
def transz (η : R) : M4 R :=
  !![1, 0, 0, 0;
     0, 1, 0, 0;
     0, 0, 1, η;
     0, 0, 0, 1]

/-- The `axis_func` stored in an ET, as a function of its `axis` tag.  The
source binds `trotx`/`troty`/`trotz` (for `Rx`/`Ry`/`Rz`) and the inline
translation builders (for `tx`/`ty`/`tz`); a pure constant (`C`) has
`axis_func = None` and this function is never invoked for it (constants are
never joints), so the `C` branch is an arbitrary placeholder. -/
def axis_func (rcos rsin : R → R) : Axis → R → M4 R
  | .Rx => trotx rcos rsin
  | .Ry => troty rcos rsin
  | .Rz => trotz rcos rsin
  | .tx => transx
  | .ty => transy
  | .tz => transz
  | .C => fun _ => 1

/-- A `SuperETS`/`ETS` instance is its internal list `self.data`. -/
abbrev ETS (R : Type) : Type := List (ETrec R)

/-- Constructor path of `ETS.rx eta` with the default unit `'rad'`:
no `eta` gives a variable joint (`joint=True`, `T=None`), a given `eta` gives
a constant with the cached transform `T = axis_func eta`. -/
def ETS.rx (rcos rsin : R → R) (eta : Option R) : ETS R :=
  [match eta with
   | none => ⟨none, .Rx, true, none⟩
   | some η => ⟨some η, .Rx, false, some (trotx rcos rsin η)⟩]

/-- Constructor path of `ETS.ry eta` (unit `'rad'`). -/
def ETS.ry (rcos rsin : R → R) (eta : Option R) : ETS R :=
  [match eta with
   | none => ⟨none, .Ry, true, none⟩
   | some η => ⟨some η, .Ry, false, some (troty rcos rsin η)⟩]

/-- Constructor path of `ETS.rz eta` (unit `'rad'`). -/
def ETS.rz (rcos rsin : R → R) (eta : Option R) : ETS R :=
  [match eta with
   | none => ⟨none, .Rz, true, none⟩
   | some η => ⟨some η, .Rz, false, some (trotz rcos rsin η)⟩]

/-- Constructor path of `ETS.tx eta`. -/
def ETS.tx (eta : Option R) : ETS R :=
  [match eta with
   | none => ⟨none, .tx, true, none⟩
   | some η => ⟨some η, .tx, false, some (transx η)⟩]

/-- Constructor path of `ETS.ty eta`. -/
def ETS.ty (eta : Option R) : ETS R :=
  [match eta with
   | none => ⟨none, .ty, true, none⟩
   | some η => ⟨some η, .ty, false, some (transy η)⟩]

/-- Constructor path of `ETS.tz eta`. -/
def ETS.tz (eta : Option R) : ETS R :=
  [match eta with
   | none => ⟨none, .tz, true, none⟩
   | some η => ⟨some η, .tz, false, some (transz η)⟩]

/-- `ETS._CONST T`: the pure-constant constructor path (`axis="C"`,
`joint=False`, `eta=None`, cached transform `T`). -/
def ETS._CONST (Tm : M4 R) : ETS R := [⟨none, .C, false, some Tm⟩]

/-- The non-joint case of the method `SuperETS.T()`: return the cached
`self.data[0].T`.  Every non-joint ET built by the constructors carries a
cached transform, so the `getD 1` default is never exercised on constructed
sequences (the source would raise `TypeError` on a `None` cache). -/
def ETrec.Tval (e : ETrec R) : M4 R := e.T.getD 1

/-- Loop of `SuperETS.eval`: walk the elements left to right with the running
product `T` (started at `np.eye(4)`), popping one entry of `q` per joint
(`none` models the `IndexError`/`AttributeError` from `q.pop(0)` when `q` is
exhausted), converting a popped entry of a revolute joint from degrees when
`deg` is set (`qj * (piR / 180)` models `qj *= np.pi / 180.0`), and
post-multiplying by the element's transform.  Entries of `q` left over when
the walk ends are ignored, exactly as in the source. -/
def SuperETS.evalAux (rcos rsin : R → R) (piR : R) (deg : Bool) :
    ETS R → M4 R → List R → Option (M4 R)
  | [], T, _ => some T
  | e :: rest, T, q =>
    if e.joint then
      match q with
      | [] => none
      | qj :: qt =>
        SuperETS.evalAux rcos rsin piR deg rest
          (T * axis_func rcos rsin e.axis
            (if e.axis.isR && deg then qj * (piR / 180) else qj)) qt
    else
      SuperETS.evalAux rcos rsin piR deg rest (T * e.Tval) q

/-- `SuperETS.eval q unit`: forward kinematics.  `deg = true` models
`unit='deg'`; `piR` is the value of `np.pi` in the scalar type. -/
def SuperETS.eval (rcos rsin : R → R) (piR : R) (deg : Bool)
    (s : ETS R) (q : List R) : Option (M4 R) :=
  SuperETS.evalAux rcos rsin piR deg s 1 q

/-- Loop of `SuperETS.compile`: `ets` is the output being accumulated,
`const` the pending folded constant.  A joint flushes the pending constant
(as `ETS._CONST const`) and is emitted unchanged; a non-joint is folded into
the pending constant by matrix multiplication; a pending constant left at the
end is flushed. -/
def SuperETS.compileAux (ets : ETS R) (const : Option (M4 R)) : ETS R → ETS R
  | [] =>
    match const with
    | some c => ets ++ ETS._CONST c
    | none => ets
  | e :: rest =>
    if e.joint then
      match const with
      | some c => SuperETS.compileAux (ets ++ ETS._CONST c ++ [e]) none rest
      | none => SuperETS.compileAux (ets ++ [e]) none rest
    else
      match const with
      | none => SuperETS.compileAux ets (some e.Tval) rest
      | some c => SuperETS.compileAux ets (some (c * e.Tval)) rest

/-- `SuperETS.compile`: constant folding (starts with `ets = ETS()` empty and
no pending constant). -/
def SuperETS.compile (s : ETS R) : ETS R := SuperETS.compileAux [] none s

/-- Property `SuperETS.n` as written in the source:

    n = 0
    for et in self:
        if et.isjoint:
            et += 1
    return n

The body increments the loop variable `et` (an `ETS`) by the int `1`, which
raises `TypeError` (`UserList.__iadd__` calls `list(1)`) at the first joint
element; only a sequence without joints reaches `return n` (= 0). -/
def SuperETS.n (s : ETS R) : Except PyErr Nat :=
  if s.any (fun e => e.joint) then .error .TypeError else .ok 0

/-- `SuperETS.joints()`: `np.where([e.isjoint for e in self])[0]`, the indices
of the joint elements in ascending order. -/
def SuperETS.joints (s : ETS R) : List Nat :=
  ((s.enum).filter (fun p => p.2.joint)).map (fun p => p.1)

/-- `SuperETS.config`:
`''.join(['R' if self.isrevolute else 'P' for i in self.joints()])`.
Each character evaluates `self.isrevolute`, i.e. `self.data[0].axis[0] == 'R'`
(the first element of the whole sequence); `none` models the `IndexError` from
`self.data[0]` on an empty sequence (unreachable: `joints` is then empty). -/
def SuperETS.config (s : ETS R) : Option (List Char) :=
  (SuperETS.joints s).mapM
    (fun _ => s.head?.map (fun e => if e.axis.isR then 'R' else 'P'))

/-- Property `SuperETS.eta`: `self.data[0].eta` (`none` = `IndexError` on an
empty sequence; the inner option is the stored `eta`, `None` for joints). -/
def SuperETS.eta (s : ETS R) : Option (Option R) := s.head?.map (fun e => e.eta)

/-- Property `SuperETS.axis`: `self.data[0].axis`. -/
def SuperETS.axis (s : ETS R) : Option Axis := s.head?.map (fun e => e.axis)

/-- Property `SuperETS.isjoint`: `self.data[0].joint`. -/
def SuperETS.isjoint (s : ETS R) : Option Bool := s.head?.map (fun e => e.joint)

/-- Property `SuperETS.isrevolute`: `self.axis[0] == 'R'`. -/
def SuperETS.isrevolute (s : ETS R) : Option Bool := s.head?.map (fun e => e.axis.isR)

/-- Property `SuperETS.isprismatic`: `self.axis[0] == 't'`. -/
def SuperETS.isprismatic (s : ETS R) : Option Bool := s.head?.map (fun e => e.axis.isP)

/-- Property `SuperETS.isconstant`: `self.axis[0] == 'C'`. -/
def SuperETS.isconstant (s : ETS R) : Option Bool := s.head?.map (fun e => e.axis.isC)

/-- `SuperETS.__getitem__ i` for a non-negative int index: wrap `self.data[i]`
in a fresh length-1 sequence (`none` = `IndexError`). -/
def SuperETS.getItem (s : ETS R) (i : Nat) : Option (ETS R) :=
  (s.get? i).map (fun e => [e])

/-- Modelled from the spec: `joint_count` = "number of elements with
`is_joint = true`".  (The source property `SuperETS.n` that should compute
this raises `TypeError`, see `SuperETS.n`; claims about joint-coordinate
vector lengths are stated against this spec-level count.) -/
def jointCount (s : ETS R) : Nat := s.countP (fun e => e.joint)

/-- Decides whether a sequence contains two or more consecutive non-joint
elements (the condition under which C1 claims `compile` strictly shrinks the
sequence). -/
def hasConsecutiveConstants : ETS R → Bool
  | a :: b :: rest => (!a.joint && !b.joint) || hasConsecutiveConstants (b :: rest)
  | _ => false

/-- `ETS.jacob0`: the method body begins with

    if offset is None:
        offset = SE3()

but no parameter or prior assignment binds `offset` (the source even carries
the comment `TODO what is offset` directly above), so every call raises
`NameError` before any Jacobian computation happens.  (Independently,
`n = self.n` on the next line would raise `TypeError` for any sequence with a
joint, see `SuperETS.n`.) -/
def ETS.jacob0 (s : ETS R) (q : List R) : Except PyErr (Nat → Nat → R) :=
  .error .NameError

/-- `np.cross` on 3-vectors (components indexed 0,1,2). -/
def crossV (u v : Nat → R) : Nat → R := fun k =>
  if k = 0 then u 1 * v 2 - u 2 * v 1
  else if k = 1 then u 2 * v 0 - u 0 * v 2
  else if k = 2 then u 0 * v 1 - u 1 * v 0
  else 0

/-- Column slice `J0[:3, i]` (linear-velocity block of column `i`). -/
def linCol (J0 : Nat → Nat → R) (i : Nat) : Nat → R := fun r => J0 r i

/-- Column slice `J0[3:, i]` (angular-velocity block of column `i`). -/
def angCol (J0 : Nat → Nat → R) (i : Nat) : Nat → R := fun r => J0 (r + 3) i

/-- Body of the double loop of `ETS.hessian0` for the pair `(j, i)`:

    H[:3, i, j] = np.cross(J0[3:, j], J0[:3, i])
    H[3:, i, j] = np.cross(J0[3:, j], J0[3:, i])
    if i != j:
        H[:3, j, i] = H[:3, i, j]

`H k a b` is entry `H[k, a, b]`; the three assignments are disjoint
(`(i,j)` with `k<3`, `(i,j)` with `3<=k<6`, and — only when `i ≠ j` — the
mirror target `(j,i)` with `k<3`), so the body is a single case split.
Note the angular half `H[3:, j, i]` is NOT mirrored. -/
def hessBody (J0 : Nat → Nat → R) (j i : Nat) (H : Nat → Nat → Nat → R) :
    Nat → Nat → Nat → R :=
  fun k a b =>
    if a = i ∧ b = j ∧ k < 3 then crossV (angCol J0 j) (linCol J0 i) k
    else if a = i ∧ b = j ∧ 3 ≤ k ∧ k < 6 then
      crossV (angCol J0 j) (angCol J0 i) (k - 3)
    else if i ≠ j ∧ a = j ∧ b = i ∧ k < 3 then
      crossV (angCol J0 j) (linCol J0 i) k
    else H k a b

/-- The tensor-construction loop of `ETS.hessian0` (source lines 814-825):
`H = np.zeros((6,n,n))`, then `for j in range(n): for i in range(j, n): ...`
with the body `hessBody`.  `List.range' j (n - j)` is Python's
`range(j, n)`. -/
def ETS.hessian0H (J0 : Nat → Nat → R) (n : Nat) : Nat → Nat → Nat → R :=
  (List.range n).foldl
    (fun H j => (List.range' j (n - j)).foldl (fun H i => hessBody J0 j i H) H)
    (fun _ _ _ => 0)

/-- `ETS.hessian0 q J0` at method level: `n = self.n` raises `TypeError` for
any sequence with a joint (see `SuperETS.n`).  For a joint-free sequence
(`n = 0`): a supplied `J0` reaches `verifymatrix(J0, (6, n))`, a name that is
never imported (`NameError`); with no `J0` and no `q`, `np.copy(self.q)`
raises `AttributeError` (`ETS` has no attribute `q`); with a `q` of length 0
the call `self.jacob0(q)` raises `NameError` (see `ETS.jacob0`), and a
longer `q` fails the `getvector(q, 0)` length check (`ValueError`).  So the
method never returns. -/
def ETS.hessian0 (s : ETS R) (q : Option (List R)) (J0 : Option (Nat → Nat → R)) :
    Except PyErr (Nat → Nat → Nat → R) :=
  match SuperETS.n s with
  | .error e => .error e
  | .ok _ =>
    match J0 with
    | some _ => .error .NameError
    | none =>
      match q with
      | none => .error .AttributeError
      | some l => if l.length = 0 then .error .NameError else .error .ValueError

/-- Constant function used to instantiate the cosine/sine parameters in
rational-valued witness sequences (their value is irrelevant there). -/
def zf : ℚ → ℚ := fun _ => 0

/-- Witness sequence for the compile claims: two consecutive constants
followed by a revolute joint. -/
def c1S : ETS ℚ := ETS.tx (some 1) ++ ETS.ty (some 2) ++ ETS.rz zf zf none

/-- Witness Jacobian for the Hessian claims: two columns with angular parts
`(0,0,1)` and `(0,1,0)` (rows 3..5), whose cross product is non-zero. -/
def c6J0 : Nat → Nat → ℚ := fun r c =>
  if c = 0 then (if r = 5 then 1 else 0) else (if r = 4 then 1 else 0)

/-- Witness sequence for the accessor claim: a joint followed by a constant. -/
def c10S : ETS ℚ := ETS.rz zf zf none ++ ETS.tx (some 1)

/-- The set of entries `H[k, a, b]` written by the `hessian0` loop body for
the pair `(j, i)`: the direct writes at `(i, j)` (all six rows) and the
mirror write at `(j, i)` (rows 0..2, only when `i ≠ j`). -/
def touches (j i k a b : Nat) : Prop :=
  (a = i ∧ b = j ∧ k < 6) ∨ (i ≠ j ∧ a = j ∧ b = i ∧ k < 3)

/-- The pairs `(j, i)` visited by the nested loops
`for j in range(n): for i in range(j, n)` of `hessian0`, in order. -/
def hessPairs (n : Nat) : List (Nat × Nat) :=
  (List.range n).flatMap (fun j => (List.range' j (n - j)).map (fun i => (j, i)))

/-! ## Helper lemmas -/

theorem compileAux_acc (l : ETS R) : ∀ (ets : ETS R) (const : Option (M4 R)),
    SuperETS.compileAux ets const l = ets ++ SuperETS.compileAux [] const l := by
  induction l with
  | nil =>
    intro ets const
    cases const <;> simp [SuperETS.compileAux]
  | cons e rest ih =>
    intro ets const
    by_cases hj : e.joint = true
    · cases const with
      | none =>
        simp only [SuperETS.compileAux, hj, if_true]
        rw [ih (ets ++ [e]), ih ([] ++ [e])]
        simp
      | some c =>
        simp only [SuperETS.compileAux, hj, if_true]
        rw [ih (ets ++ ETS._CONST c ++ [e]), ih ([] ++ ETS._CONST c ++ [e])]
        simp
    · cases const with
      | none =>
        simp only [SuperETS.compileAux, hj, if_false, Bool.false_eq_true]
        exact ih ets (some e.Tval)
      | some c =>
        simp only [SuperETS.compileAux, hj, if_false, Bool.false_eq_true]
        exact ih ets (some (c * e.Tval))

theorem compileAux_joint_none {e : ETrec R} {rest : ETS R} (hj : e.joint = true) :
    SuperETS.compileAux [] none (e :: rest) = e :: SuperETS.compileAux [] none rest := by
  simp only [SuperETS.compileAux, hj, if_true]
  rw [compileAux_acc rest ([] ++ [e])]
  simp

theorem compileAux_joint_some {e : ETrec R} {rest : ETS R} {c : M4 R} (hj : e.joint = true) :
    SuperETS.compileAux [] (some c) (e :: rest)
      = ETS._CONST c ++ e :: SuperETS.compileAux [] none rest := by
  simp only [SuperETS.compileAux, hj, if_true]
  rw [compileAux_acc rest ([] ++ ETS._CONST c ++ [e])]
  simp

theorem compileAux_nonjoint_none {e : ETrec R} {rest : ETS R} (hj : e.joint = false) :
    SuperETS.compileAux [] none (e :: rest)
      = SuperETS.compileAux [] (some e.Tval) rest := by
  simp [SuperETS.compileAux, hj]

theorem compileAux_nonjoint_some {e : ETrec R} {rest : ETS R} {c : M4 R} (hj : e.joint = false) :
    SuperETS.compileAux [] (some c) (e :: rest)
      = SuperETS.compileAux [] (some (c * e.Tval)) rest := by
  simp [SuperETS.compileAux, hj]

theorem evalAux_compileAux (rcos rsin : R → R) (piR : R) (deg : Bool) (l : ETS R) :
    ∀ (const : Option (M4 R)) (T : M4 R) (q : List R),
      SuperETS.evalAux rcos rsin piR deg (SuperETS.compileAux [] const l) T q
        = SuperETS.evalAux rcos rsin piR deg l (T * const.getD 1) q := by
  induction l with
  | nil =>
    intro const T q
    cases const with
    | none => simp [SuperETS.compileAux, SuperETS.evalAux]
    | some c => simp [SuperETS.compileAux, ETS._CONST, SuperETS.evalAux, ETrec.Tval]
  | cons e rest ih =>
    intro const T q
    by_cases hj : e.joint = true
    · cases const with
      | none =>
        rw [compileAux_joint_none hj]
        cases q with
        | nil => simp [SuperETS.evalAux, hj]
        | cons qj qt => simp [SuperETS.evalAux, hj, ih, mul_one]
      | some c =>
        rw [compileAux_joint_some hj]
        cases q with
        | nil => simp [SuperETS.evalAux, ETS._CONST, ETrec.Tval, hj]
        | cons qj qt => simp [SuperETS.evalAux, ETS._CONST, ETrec.Tval, hj, ih, mul_one]
    · rw [Bool.not_eq_true] at hj
      cases const with
      | none =>
        rw [compileAux_nonjoint_none hj]
        simp [SuperETS.evalAux, hj, ih, mul_one, one_mul]
      | some c =>
        rw [compileAux_nonjoint_some hj]
        simp [SuperETS.evalAux, hj, ih, mul_assoc]

theorem eval_compile (rcos rsin : R → R) (piR : R) (deg : Bool) (s : ETS R) (q : List R) :
    SuperETS.eval rcos rsin piR deg (SuperETS.compile s) q
      = SuperETS.eval rcos rsin piR deg s q := by
  unfold SuperETS.eval SuperETS.compile
  rw [evalAux_compileAux]
  simp

theorem compileAux_filter (l : ETS R) : ∀ const : Option (M4 R),
    (SuperETS.compileAux [] const l).filter (fun e => e.joint)
      = l.filter (fun e => e.joint) := by
  induction l with
  | nil => intro const; cases const <;> simp [SuperETS.compileAux, ETS._CONST]
  | cons e rest ih =>
    intro const
    by_cases hj : e.joint = true
    · cases const with
      | none => rw [compileAux_joint_none hj]; simp [hj, ih none]
      | some c => rw [compileAux_joint_some hj]; simp [ETS._CONST, hj, ih none]
    · rw [Bool.not_eq_true] at hj
      cases const with
      | none => rw [compileAux_nonjoint_none hj]; simp [hj, ih]
      | some c => rw [compileAux_nonjoint_some hj]; simp [hj, ih]

theorem compileAux_length_le (l : ETS R) : ∀ const : Option (M4 R),
    (SuperETS.compileAux [] const l).length
      ≤ l.length + (if const.isSome then 1 else 0) := by
  induction l with
  | nil => intro const; cases const <;> simp [SuperETS.compileAux, ETS._CONST]
  | cons e rest ih =>
    intro const
    by_cases hj : e.joint = true
    · cases const with
      | none =>
        rw [compileAux_joint_none hj]
        have := ih none
        simp at *
        omega
      | some c =>
        rw [compileAux_joint_some hj]
        have := ih none
        simp [ETS._CONST] at *
        omega
    · rw [Bool.not_eq_true] at hj
      cases const with
      | none =>
        rw [compileAux_nonjoint_none hj]
        have := ih (some e.Tval)
        simp at *
        omega
      | some c =>
        rw [compileAux_nonjoint_some hj]
        have := ih (some (c * e.Tval))
        simp at *
        omega

theorem compileAux_length_lt (l : ETS R) : hasConsecutiveConstants l = true →
    ∀ const : Option (M4 R),
      (SuperETS.compileAux [] const l).length
        < l.length + (if const.isSome then 1 else 0) := by
  induction l with
  | nil => intro h; simp [hasConsecutiveConstants] at h
  | cons a rest ih =>
    intro h const
    cases rest with
    | nil => simp [hasConsecutiveConstants] at h
    | cons b rest2 =>
      by_cases hja : a.joint = true
      · have h2 : hasConsecutiveConstants (b :: rest2) = true := by
          simpa [hasConsecutiveConstants, hja] using h
        cases const with
        | none =>
          rw [compileAux_joint_none hja]
          have := ih h2 none
          simp at *
          omega
        | some c =>
          rw [compileAux_joint_some hja]
          have := ih h2 none
          simp [ETS._CONST] at *
          omega
      · rw [Bool.not_eq_true] at hja
        by_cases hjb : b.joint = true
        · have h2 : hasConsecutiveConstants (b :: rest2) = true := by
            simpa [hasConsecutiveConstants, hja, hjb] using h
          cases const with
          | none =>
            rw [compileAux_nonjoint_none hja, compileAux_joint_some hjb]
            have := ih h2 none
            rw [compileAux_joint_none hjb] at this
            simp [ETS._CONST] at *
            omega
          | some c =>
            rw [compileAux_nonjoint_some hja, compileAux_joint_some hjb]
            have := ih h2 none
            rw [compileAux_joint_none hjb] at this
            simp [ETS._CONST] at *
            omega
        · rw [Bool.not_eq_true] at hjb
          cases const with
          | none =>
            rw [compileAux_nonjoint_none hja, compileAux_nonjoint_some hjb]
            have := compileAux_length_le rest2 (some (a.Tval * b.Tval))
            simp at *
            omega
          | some c =>
            rw [compileAux_nonjoint_some hja, compileAux_nonjoint_some hjb]
            have := compileAux_length_le rest2 (some (c * a.Tval * b.Tval))
            simp at *
            omega

theorem compileAux_noConsec (l : ETS R) : ∀ const : Option (M4 R),
    hasConsecutiveConstants (SuperETS.compileAux [] const l) = false := by
  induction l with
  | nil =>
    intro const
    cases const <;> simp [SuperETS.compileAux, ETS._CONST, hasConsecutiveConstants]
  | cons e rest ih =>
    intro const
    by_cases hj : e.joint = true
    · have hx := ih none
      cases const with
      | none =>
        rw [compileAux_joint_none hj]
        cases hX : SuperETS.compileAux [] none rest with
        | nil => simp [hasConsecutiveConstants]
        | cons x xs =>
          rw [hX] at hx
          simp [hasConsecutiveConstants, hj, hx]
      | some c =>
        rw [compileAux_joint_some hj]
        cases hX : SuperETS.compileAux [] none rest with
        | nil => simp [hasConsecutiveConstants, ETS._CONST, hj]
        | cons x xs =>
          rw [hX] at hx
          simp [hasConsecutiveConstants, ETS._CONST, hj, hx]
    · rw [Bool.not_eq_true] at hj
      cases const with
      | none => rw [compileAux_nonjoint_none hj]; exact ih _
      | some c => rw [compileAux_nonjoint_some hj]; exact ih _

theorem compileAux_length_of_noConsec (l : ETS R) :
    hasConsecutiveConstants l = false →
      (SuperETS.compileAux [] none l).length = l.length := by
  induction l with
  | nil => intro _; rfl
  | cons a rest ih =>
    intro h
    by_cases hja : a.joint = true
    · rw [compileAux_joint_none hja]
      have h2 : hasConsecutiveConstants rest = false := by
        cases rest with
        | nil => simp [hasConsecutiveConstants]
        | cons b rest2 => simpa [hasConsecutiveConstants, hja] using h
      simp [ih h2]
    · rw [Bool.not_eq_true] at hja
      cases rest with
      | nil => rw [compileAux_nonjoint_none hja]; rfl
      | cons b rest2 =>
        have hjb : b.joint = true := by
          by_contra hb
          rw [Bool.not_eq_true] at hb
          simp [hasConsecutiveConstants, hja, hb] at h
        have h2 : hasConsecutiveConstants (b :: rest2) = false := by
          simpa [hasConsecutiveConstants, hja, hjb] using h
        rw [compileAux_nonjoint_none hja, compileAux_joint_some hjb]
        have := ih h2
        rw [compileAux_joint_none hjb] at this
        simp [ETS._CONST] at *
        omega

theorem evalAux_isSome_iff (rcos rsin : R → R) (piR : R) (deg : Bool) (s : ETS R) :
    ∀ (T : M4 R) (q : List R),
      (SuperETS.evalAux rcos rsin piR deg s T q).isSome = true
        ↔ jointCount s ≤ q.length := by
  induction s with
  | nil => intro T q; simp [SuperETS.evalAux, jointCount]
  | cons e rest ih =>
    intro T q
    by_cases hj : e.joint = true
    · cases q with
      | nil =>
        simp [SuperETS.evalAux, hj, jointCount, List.countP_cons]
      | cons qj qt =>
        simp [SuperETS.evalAux, hj, ih, jointCount, List.countP_cons]
    · rw [Bool.not_eq_true] at hj
      simp [SuperETS.evalAux, hj, ih, jointCount, List.countP_cons]

theorem hessBody_untouched (J0 : Nat → Nat → R) (j i k a b : Nat)
    (h : ¬ touches j i k a b) (H : Nat → Nat → Nat → R) :
    hessBody J0 j i H k a b = H k a b := by
  unfold hessBody
  split_ifs with h1 h2 h3
  · exact absurd (Or.inl ⟨h1.1, h1.2.1, by omega⟩) h
  · exact absurd (Or.inl ⟨h2.1, h2.2.1, by omega⟩) h
  · exact absurd (Or.inr h3) h
  · rfl

theorem hessBody_indep (J0 : Nat → Nat → R) (j i k a b : Nat)
    (h : touches j i k a b) (H Hs : Nat → Nat → Nat → R) :
    hessBody J0 j i H k a b = hessBody J0 j i Hs k a b := by
  unfold hessBody
  split_ifs with h1 h2 h3
  · rfl
  · rfl
  · rfl
  · exfalso
    rcases h with ⟨ha, hb, hk⟩ | ⟨hne, ha, hb, hk⟩
    · rcases Nat.lt_or_ge k 3 with hk3 | hk3
      · exact h1 ⟨ha, hb, hk3⟩
      · exact h2 ⟨ha, hb, hk3, hk⟩
    · exact h3 ⟨hne, ha, hb, hk⟩

theorem foldl_hessBody_untouched (J0 : Nat → Nat → R) (k a b : Nat)
    (l : List (Nat × Nat)) :
    ∀ H : Nat → Nat → Nat → R, (∀ p ∈ l, ¬ touches p.1 p.2 k a b) →
      (l.foldl (fun H ji => hessBody J0 ji.1 ji.2 H) H) k a b = H k a b := by
  induction l with
  | nil => intro H _; rfl
  | cons p rest ih =>
    intro H h
    simp only [List.foldl_cons]
    rw [ih _ (fun u hu => h u (List.mem_cons_of_mem _ hu))]
    exact hessBody_untouched _ _ _ _ _ _ (h p (List.mem_cons_self _ _)) H

theorem foldl_hessBody_write (J0 : Nat → Nat → R) (k a b j0 i0 : Nat)
    (l : List (Nat × Nat)) :
    ∀ H : Nat → Nat → Nat → R, (j0, i0) ∈ l → touches j0 i0 k a b →
      (∀ p ∈ l, touches p.1 p.2 k a b → p = (j0, i0)) →
      (l.foldl (fun H ji => hessBody J0 ji.1 ji.2 H) H) k a b
        = hessBody J0 j0 i0 (fun _ _ _ => 0) k a b := by
  induction l with
  | nil => intro H hmem; exact absurd hmem (List.not_mem_nil _)
  | cons p rest ih =>
    intro H hmem ht huniq
    simp only [List.foldl_cons]
    by_cases hp : (j0, i0) ∈ rest
    · exact ih _ hp ht (fun u hu hu2 => huniq u (List.mem_cons_of_mem _ hu) hu2)
    · have hpe : p = (j0, i0) := by
        rcases List.mem_cons.mp hmem with h | h
        · exact h.symm
        · exact absurd h hp
      subst hpe
      rw [foldl_hessBody_untouched _ _ _ _ rest _ ?noTouch]
      · exact hessBody_indep _ _ _ _ _ _ ht H _
      case noTouch =>
        intro u hu hut
        have heq := huniq u (List.mem_cons_of_mem _ hu) hut
        rw [heq] at hu
        exact hp hu

theorem hessian0H_eq_pairs (J0 : Nat → Nat → R) (n : Nat) :
    ETS.hessian0H J0 n
      = (hessPairs n).foldl (fun H ji => hessBody J0 ji.1 ji.2 H)
          (fun _ _ _ => 0) := by
  unfold ETS.hessian0H hessPairs
  generalize (fun _ _ _ => (0 : R)) = H
  induction List.range n generalizing H with
  | nil => rfl
  | cons j L ih =>
    simp only [List.foldl_cons, List.flatMap_cons, List.foldl_append, List.foldl_map]
    exact ih _

theorem mem_hessPairs {n j i : Nat} : (j, i) ∈ hessPairs n ↔ j ≤ i ∧ i < n := by
  simp only [hessPairs, List.mem_flatMap, List.mem_map, List.mem_range,
    Prod.mk.injEq]
  constructor
  · rintro ⟨a, ha, b, hb, rfl, rfl⟩
    rw [List.mem_range'_1] at hb
    omega
  · rintro ⟨h1, h2⟩
    exact ⟨j, by omega, i, by rw [List.mem_range'_1]; omega, rfl, rfl⟩

theorem trotz_zero : trotz Real.cos Real.sin (0 : ℝ) = 1 := by
  unfold trotz
  ext i j
  fin_cases i <;> fin_cases j <;>
    simp [Matrix.one_apply, Matrix.vecHead, Matrix.vecTail]

theorem transx_mul (a b : R) : transx a * transx b = transx (a + b) := by
  unfold transx
  ext i j
  fin_cases i <;> fin_cases j <;>
    simp [Matrix.mul_apply, Fin.sum_univ_four, Matrix.vecHead, Matrix.vecTail] <;>
    ring

theorem trotz_pi_div_two : trotz Real.cos Real.sin (Real.pi / 2)
    = !![0, -1, 0, 0; 1, 0, 0, 0; 0, 0, 1, 0; 0, 0, 0, 1] := by
  unfold trotz
  rw [Real.cos_pi_div_two, Real.sin_pi_div_two]

theorem trotz_neg_pi_div_two : trotz Real.cos Real.sin (-(Real.pi / 2))
    = !![0, 1, 0, 0; -1, 0, 0, 0; 0, 0, 1, 0; 0, 0, 0, 1] := by
  unfold trotz
  rw [Real.cos_neg, Real.sin_neg, Real.cos_pi_div_two, Real.sin_pi_div_two]
  norm_num

theorem c7_matrix_product :
    (!![0, -1, 0, 0; 1, 0, 0, 0; 0, 0, 1, 0; 0, 0, 0, 1] : M4 ℝ) * transx 1
      * !![0, 1, 0, 0; -1, 0, 0, 0; 0, 0, 1, 0; 0, 0, 0, 1] * transx 1
      = !![1, 0, 0, 1; 0, 1, 0, 1; 0, 0, 1, 0; 0, 0, 0, 1] := by
  unfold transx
  ext i j
  fin_cases i <;> fin_cases j <;>
    simp [Matrix.mul_apply, Fin.sum_univ_four, Matrix.vecHead, Matrix.vecTail] <;>
    ring

/-! ## Claims -/

/-- C1: for every transform sequence `S` and every joint-coordinate vector
`q` whose length equals the number of joint elements of `S`, `compile S`
evaluates to the same pose as `S`, has the same joint elements in the same
order, and has strictly fewer total elements whenever `S` contains two or
more consecutive non-joint elements. -/
theorem C1_compile_correct (rcos rsin : R → R) (piR : R) (s : ETS R) (q : List R)
    (hq : q.length = jointCount s) :
    SuperETS.eval rcos rsin piR false (SuperETS.compile s) q
        = SuperETS.eval rcos rsin piR false s q
    ∧ (SuperETS.compile s).filter (fun e => e.joint) = s.filter (fun e => e.joint)
    ∧ (hasConsecutiveConstants s = true →
        (SuperETS.compile s).length < s.length) := by
  refine ⟨eval_compile rcos rsin piR false s q, compileAux_filter s none,
    fun h => ?_⟩
  have hlt := compileAux_length_lt s h none
  simpa using hlt

/-- C1 witness: the theorem applied to the concrete sequence
`tx(1) * ty(2) * rz()` (two consecutive constants, one joint) at `q = [5]`. -/
theorem C1_compile_correct_witness :
    ([(5 : ℚ)].length = jointCount c1S)
    ∧ (SuperETS.eval zf zf 0 false (SuperETS.compile c1S) [5]
          = SuperETS.eval zf zf 0 false c1S [5]
       ∧ (SuperETS.compile c1S).filter (fun e => e.joint)
          = c1S.filter (fun e => e.joint)
       ∧ (hasConsecutiveConstants c1S = true →
          (SuperETS.compile c1S).length < c1S.length)) :=
  ⟨by decide, C1_compile_correct zf zf 0 c1S [5] (by decide)⟩

/-- C2 (code bug): `jacob0` raises `NameError` on the unbound local `offset`
before walking the sequence; evaluated here on `rz() * tx(1)` at `q = [0]`,
where the claim instead promises the U-matrix column construction. -/
theorem C2_jacob0_raises :
    ETS.jacob0 (ETS.rz Real.cos Real.sin none ++ ETS.tx (some 1) : ETS ℝ) [0]
      = Except.error PyErr.NameError := rfl

/-- C3 (code bug): on a sequence with zero joints (`tx(1)`), `jacob0` does
not return a 6x0 matrix: it raises `NameError` on the unbound `offset`. -/
theorem C3_jacob0_zero_joints_raises :
    ETS.jacob0 (ETS.tx (some 1) : ETS ℝ) []
      = Except.error PyErr.NameError := rfl

/-- C4 (code bug): the property `n` raises `TypeError` on any sequence with
at least one joint (`et += 1` increments the loop element, not the counter);
evaluated here on the single-joint sequence `rx()`, where the claim instead
promises the value 1. -/
theorem C4_n_raises :
    SuperETS.n (ETS.rx Real.cos Real.sin none : ETS ℝ)
      = Except.error PyErr.TypeError := rfl

/-- C5 (code bug): `config` of `rz() * tx()` (a revolute joint followed by a
prismatic joint) is `"RR"`, not `"RP"`: each character tests
`self.isrevolute`, which looks only at the first element of the whole
sequence. -/
theorem C5_config_first_element :
    SuperETS.config (ETS.rz Real.cos Real.sin none ++ ETS.tx none : ETS ℝ)
      = some ['R', 'R'] := rfl

/-- C6 (amended): in the tensor built by the `hessian0` loop from `J0`, for
every pair `j < i < n` the linear rows `k < 3` are mirrored —
`H[k,j,i] = H[k,i,j] = cross(J0[3:,j], J0[:3,i])[k]` — while the angular rows
`3 ≤ k < 6` are NOT mirrored: `H[k,j,i]` keeps its initial value `0`
although `H[k,i,j] = cross(J0[3:,j], J0[3:,i])[k-3]`. -/
theorem C6_hessian_mirror (J0 : Nat → Nat → R) (n j i : Nat)
    (hji : j < i) (hin : i < n) :
    (∀ k, k < 3 →
        ETS.hessian0H J0 n k j i = ETS.hessian0H J0 n k i j
        ∧ ETS.hessian0H J0 n k i j = crossV (angCol J0 j) (linCol J0 i) k)
    ∧ (∀ k, 3 ≤ k → k < 6 →
        ETS.hessian0H J0 n k j i = 0
        ∧ ETS.hessian0H J0 n k i j
            = crossV (angCol J0 j) (angCol J0 i) (k - 3)) := by
  have hmem : (j, i) ∈ hessPairs n := mem_hessPairs.mpr ⟨Nat.le_of_lt hji, hin⟩
  have hne : j ≠ i := Nat.ne_of_lt hji
  have hne2 : i ≠ j := hne.symm
  rw [hessian0H_eq_pairs]
  constructor
  · intro k hk
    have hu1 : ∀ p ∈ hessPairs n, touches p.1 p.2 k i j → p = (j, i) := by
      rintro ⟨p1, p2⟩ hp (⟨h1, h2, h3⟩ | ⟨h1, h2, h3, h4⟩)
      · subst h1; subst h2; rfl
      · have hmm := (mem_hessPairs.mp hp).1
        exfalso; omega
    have hu2 : ∀ p ∈ hessPairs n, touches p.1 p.2 k j i → p = (j, i) := by
      rintro ⟨p1, p2⟩ hp (⟨h1, h2, h3⟩ | ⟨h1, h2, h3, h4⟩)
      · have hmm := (mem_hessPairs.mp hp).1
        exfalso; omega
      · subst h2; subst h3; rfl
    have hdir := foldl_hessBody_write J0 k i j j i (hessPairs n)
      (fun _ _ _ => 0) hmem (Or.inl ⟨rfl, rfl, by omega⟩) hu1
    have hmir := foldl_hessBody_write J0 k j i j i (hessPairs n)
      (fun _ _ _ => 0) hmem (Or.inr ⟨hne2, rfl, rfl, hk⟩) hu2
    rw [hdir, hmir]
    constructor
    · simp [hessBody, hne, hne2, hk]
    · simp [hessBody, hk]
  · intro k hk3 hk6
    have hu1 : ∀ p ∈ hessPairs n, touches p.1 p.2 k i j → p = (j, i) := by
      rintro ⟨p1, p2⟩ hp (⟨h1, h2, h3⟩ | ⟨h1, h2, h3, h4⟩)
      · subst h1; subst h2; rfl
      · exfalso; omega
    have hdir := foldl_hessBody_write J0 k i j j i (hessPairs n)
      (fun _ _ _ => 0) hmem (Or.inl ⟨rfl, rfl, by omega⟩) hu1
    have hmir := foldl_hessBody_untouched J0 k j i (hessPairs n)
      (fun _ _ _ => 0) ?nob
    case nob =>
      rintro ⟨p1, p2⟩ hp (⟨h1, h2, h3⟩ | ⟨h1, h2, h3, h4⟩)
      · have hmm := (mem_hessPairs.mp hp).1
        omega
      · omega
    rw [hdir, hmir]
    have hk3n : ¬ k < 3 := by omega
    constructor
    · rfl
    · simp [hessBody, hk3n, hk3, hk6]

/-- C6 witness: the amended theorem applied to the concrete Jacobian `c6J0`
with `n = 2`, `j = 0`, `i = 1`. -/
theorem C6_hessian_mirror_witness :
    ((0 : Nat) < 1 ∧ (1 : Nat) < 2)
    ∧ ((∀ k, k < 3 →
          ETS.hessian0H c6J0 2 k 0 1 = ETS.hessian0H c6J0 2 k 1 0
          ∧ ETS.hessian0H c6J0 2 k 1 0 = crossV (angCol c6J0 0) (linCol c6J0 1) k)
       ∧ (∀ k, 3 ≤ k → k < 6 →
          ETS.hessian0H c6J0 2 k 0 1 = 0
          ∧ ETS.hessian0H c6J0 2 k 1 0
              = crossV (angCol c6J0 0) (angCol c6J0 1) (k - 3))) :=
  ⟨⟨by decide, by decide⟩, C6_hessian_mirror c6J0 2 0 1 (by decide) (by decide)⟩

/-- C6 counterexample: for the concrete Jacobian `c6J0` (angular columns
`(0,0,1)` and `(0,1,0)`), the angular entry `H[3,0,1]` (which stays `0`) does
not equal the computed half `H[3,1,0]` (which is `-1`), refuting the claimed
angular-block symmetry `H[3:,j,i] == H[3:,i,j]`. -/
theorem C6_counterexample :
    ¬ (ETS.hessian0H c6J0 2 3 0 1 = ETS.hessian0H c6J0 2 3 1 0) := by
  have h1 : ETS.hessian0H c6J0 2 3 0 1 = 0 := by
    rw [hessian0H_eq_pairs]
    refine foldl_hessBody_untouched c6J0 3 0 1 (hessPairs 2) _ ?_
    rintro ⟨p1, p2⟩ hp (⟨ha, hb, hk⟩ | ⟨hn, ha, hb, hk⟩)
    · have hmm := (mem_hessPairs.mp hp).1
      omega
    · omega
  have h2 : ETS.hessian0H c6J0 2 3 1 0
      = crossV (angCol c6J0 0) (angCol c6J0 1) 0 := by
    rw [hessian0H_eq_pairs]
    rw [foldl_hessBody_write c6J0 3 1 0 0 1 (hessPairs 2) (fun _ _ _ => 0)
      (by decide) (Or.inl ⟨rfl, rfl, by omega⟩) ?uq]
    case uq =>
      rintro ⟨p1, p2⟩ hp (⟨ha, hb, hk⟩ | ⟨hn, ha, hb, hk⟩)
      · subst ha; subst hb; rfl
      · exfalso; omega
    simp [hessBody]
  rw [h1, h2]
  norm_num [crossV, angCol, c6J0]

/-- C7: on `rz() * tx(1) * rz() * tx(1)`, `eval [0,0]` is the pure
translation `(2,0,0)`; `eval [π/2, -π/2]` (radians) is translation `(1,1,0)`
with identity rotation; and `eval [90,-90]` in degrees equals the radian
call. -/
theorem C7_eval_concrete :
    SuperETS.eval Real.cos Real.sin Real.pi false
        (ETS.rz Real.cos Real.sin none ++ ETS.tx (some 1)
          ++ ETS.rz Real.cos Real.sin none ++ ETS.tx (some 1)) [0, 0]
      = some !![1, 0, 0, 2; 0, 1, 0, 0; 0, 0, 1, 0; 0, 0, 0, 1]
    ∧ SuperETS.eval Real.cos Real.sin Real.pi false
        (ETS.rz Real.cos Real.sin none ++ ETS.tx (some 1)
          ++ ETS.rz Real.cos Real.sin none ++ ETS.tx (some 1))
        [Real.pi / 2, -(Real.pi / 2)]
      = some !![1, 0, 0, 1; 0, 1, 0, 1; 0, 0, 1, 0; 0, 0, 0, 1]
    ∧ SuperETS.eval Real.cos Real.sin Real.pi true
        (ETS.rz Real.cos Real.sin none ++ ETS.tx (some 1)
          ++ ETS.rz Real.cos Real.sin none ++ ETS.tx (some 1)) [90, -90]
      = SuperETS.eval Real.cos Real.sin Real.pi false
        (ETS.rz Real.cos Real.sin none ++ ETS.tx (some 1)
          ++ ETS.rz Real.cos Real.sin none ++ ETS.tx (some 1))
        [Real.pi / 2, -(Real.pi / 2)] := by
  have h2 : SuperETS.eval Real.cos Real.sin Real.pi false
      (ETS.rz Real.cos Real.sin none ++ ETS.tx (some 1)
        ++ ETS.rz Real.cos Real.sin none ++ ETS.tx (some 1))
      [Real.pi / 2, -(Real.pi / 2)]
      = some ((((1 * trotz Real.cos Real.sin (Real.pi / 2)) * transx 1)
          * trotz Real.cos Real.sin (-(Real.pi / 2))) * transx 1) := rfl
  refine ⟨?one, ?two, ?three⟩
  case one =>
    have h1 : SuperETS.eval Real.cos Real.sin Real.pi false
        (ETS.rz Real.cos Real.sin none ++ ETS.tx (some 1)
          ++ ETS.rz Real.cos Real.sin none ++ ETS.tx (some 1)) [0, 0]
        = some ((((1 * trotz Real.cos Real.sin 0) * transx 1)
            * trotz Real.cos Real.sin 0) * transx 1) := rfl
    rw [h1, trotz_zero]
    simp only [one_mul, mul_one]
    rw [transx_mul]
    norm_num [transx]
  case two =>
    rw [h2, trotz_pi_div_two, trotz_neg_pi_div_two]
    simp only [one_mul]
    rw [c7_matrix_product]
  case three =>
    have h3 : SuperETS.eval Real.cos Real.sin Real.pi true
        (ETS.rz Real.cos Real.sin none ++ ETS.tx (some 1)
          ++ ETS.rz Real.cos Real.sin none ++ ETS.tx (some 1)) [90, -90]
        = some ((((1 * trotz Real.cos Real.sin (90 * (Real.pi / 180)))
              * transx 1)
            * trotz Real.cos Real.sin ((-90) * (Real.pi / 180)))
            * transx 1) := rfl
    have e1 : (90 : ℝ) * (Real.pi / 180) = Real.pi / 2 := by ring
    have e2 : (-90 : ℝ) * (Real.pi / 180) = -(Real.pi / 2) := by ring
    rw [h3, e1, e2, h2]

/-- C8 (amended): `eval` raises (the `IndexError` from `q.pop(0)`) exactly
when `q` has fewer entries than the number of joint elements; a `q` of
matching length succeeds, and extra trailing entries are silently ignored
rather than rejected. -/
theorem C8_eval_defined_iff (rcos rsin : R → R) (piR : R) (deg : Bool)
    (s : ETS R) (q : List R) :
    (SuperETS.eval rcos rsin piR deg s q).isSome = true
      ↔ jointCount s ≤ q.length :=
  evalAux_isSome_iff rcos rsin piR deg s 1 q

/-- C8 witness: the amended theorem instantiated at the single-joint
sequence `rz()` and the length-2 vector `[0, 5]`. -/
theorem C8_eval_defined_iff_witness :
    (SuperETS.eval zf zf 0 false (ETS.rz zf zf none) [0, 5]).isSome = true
      ↔ jointCount (ETS.rz zf zf none) ≤ [(0 : ℚ), 5].length :=
  C8_eval_defined_iff zf zf 0 false (ETS.rz zf zf none) [0, 5]

/-- C8 counterexample: `rz()` has one joint, yet `eval [0, 5]` — a
joint-coordinate vector of the wrong length 2 — succeeds instead of failing
with a dimension error: the extra entry is silently ignored. -/
theorem C8_counterexample :
    jointCount (ETS.rz Real.cos Real.sin none) = 1
    ∧ (SuperETS.eval Real.cos Real.sin Real.pi false
        (ETS.rz Real.cos Real.sin none) [0, 5]).isSome = true :=
  ⟨rfl, rfl⟩

/-- C9: compilation is idempotent — `compile (compile S)` has the same
element count as `compile S` and evaluates identically on every valid
joint-coordinate vector. -/
theorem C9_compile_idempotent (rcos rsin : R → R) (piR : R) (s : ETS R) :
    (SuperETS.compile (SuperETS.compile s)).length = (SuperETS.compile s).length
    ∧ ∀ q : List R, q.length = jointCount (SuperETS.compile s) →
        SuperETS.eval rcos rsin piR false
            (SuperETS.compile (SuperETS.compile s)) q
          = SuperETS.eval rcos rsin piR false (SuperETS.compile s) q := by
  constructor
  · exact compileAux_length_of_noConsec _ (compileAux_noConsec s none)
  · intro q _
    exact eval_compile rcos rsin piR false (SuperETS.compile s) q

/-- C9 witness: the theorem applied to the concrete sequence `c1S` and the
concrete joint vector `[5]`. -/
theorem C9_compile_idempotent_witness :
    ([(5 : ℚ)].length = jointCount (SuperETS.compile c1S))
    ∧ (SuperETS.compile (SuperETS.compile c1S)).length
        = (SuperETS.compile c1S).length
    ∧ SuperETS.eval zf zf 0 false (SuperETS.compile (SuperETS.compile c1S)) [5]
        = SuperETS.eval zf zf 0 false (SuperETS.compile c1S) [5] :=
  ⟨by decide, (C9_compile_idempotent zf zf 0 c1S).1,
    (C9_compile_idempotent zf zf 0 c1S).2 [5] (by decide)⟩

/-- C10: on any sequence of length at least 2, the per-element accessors
`eta`, `axis`, `isjoint`, `isrevolute`, `isprismatic`, `isconstant` agree
with their values on the length-1 sequence `S[0]` (which `getItem` returns),
regardless of the remaining elements. -/
theorem C10_head_accessors (s : ETS R) (h : 2 ≤ s.length) :
    SuperETS.getItem s 0 = some (s.take 1)
    ∧ SuperETS.eta s = SuperETS.eta (s.take 1)
    ∧ SuperETS.axis s = SuperETS.axis (s.take 1)
    ∧ SuperETS.isjoint s = SuperETS.isjoint (s.take 1)
    ∧ SuperETS.isrevolute s = SuperETS.isrevolute (s.take 1)
    ∧ SuperETS.isprismatic s = SuperETS.isprismatic (s.take 1)
    ∧ SuperETS.isconstant s = SuperETS.isconstant (s.take 1) := by
  cases s with
  | nil => simp at h
  | cons a rest => exact ⟨rfl, rfl, rfl, rfl, rfl, rfl, rfl⟩

/-- C10 witness: the theorem applied to the length-2 sequence
`rz() * tx(1)`. -/
theorem C10_head_accessors_witness :
    (2 ≤ c10S.length)
    ∧ (SuperETS.getItem c10S 0 = some (c10S.take 1)
       ∧ SuperETS.eta c10S = SuperETS.eta (c10S.take 1)
       ∧ SuperETS.axis c10S = SuperETS.axis (c10S.take 1)
       ∧ SuperETS.isjoint c10S = SuperETS.isjoint (c10S.take 1)
       ∧ SuperETS.isrevolute c10S = SuperETS.isrevolute (c10S.take 1)
       ∧ SuperETS.isprismatic c10S = SuperETS.isprismatic (c10S.take 1)
       ∧ SuperETS.isconstant c10S = SuperETS.isconstant (c10S.take 1)) :=
  ⟨by decide, C10_head_accessors c10S (by decide)⟩

end RTB
